import Mathlib

/-!
Verification of the OpenAI-with-Langfuse n8n node: a shallow embedding of the
parameter-mapping logic of `supplyData` in
`nodes/LmChatOpenAiLangfuse/LmChatOpenAiLangfuse.node.ts` and of the
`handleLLMEnd` override in
`nodes/LmChatOpenAiLangfuse/utils/LangfuseCallbackHandlerWrapper.ts`.

Runtime JavaScript objects are embedded as association lists over a small
JSON-like value type; JavaScript truthiness is made explicit; absent fields
are `Option.none`.
-/

/-- A runtime JSON-like value as it flows through the node's option handling.
Only the shapes the mapped options actually take are represented. -/
inductive JValue where
  | str (s : String)
  | num (q : Rat)
  | boolean (b : Bool)
  deriving DecidableEq, Repr

/-- JavaScript truthiness of a value: the empty string and zero are falsy. -/
def JValue.truthy : JValue → Bool
  | .str s => s ≠ ""
  | .num q => q ≠ 0
  | .boolean b => b

/-- The runtime options object read by `this.getNodeParameter('options', ...)`:
a JavaScript object, embedded as an association list of its own properties.
Arbitrary keys may be present (the engine performs no filtering). -/
abbrev OptionsRecord := List (String × JValue)

/-- Property access `options.k`: `none` embeds JavaScript `undefined`. -/
def getOpt (o : OptionsRecord) (k : String) : Option JValue := o.lookup k

/-- JavaScript truthiness of a possibly-absent value (`undefined` is falsy). -/
def jsTruthy : Option JValue → Bool
  | none => false
  | some v => v.truthy

/-- The allow-list passed to lodash `pick` at lines 719-726 of the node. -/
def includedOptionKeys : List String :=
  ["frequencyPenalty", "maxTokens", "presencePenalty", "temperature", "topP", "baseURL"]

/-- lodash `pick(object, keys)`: an object holding, in the order of `keys`,
those requested keys that exist on the input, with their values. -/
def pick (o : OptionsRecord) (keys : List String) : OptionsRecord :=
  keys.filterMap fun k => (o.lookup k).map fun v => (k, v)

theorem lookup_pick (o : OptionsRecord) (keys : List String) (k : String) :
    (pick o keys).lookup k = if k ∈ keys then o.lookup k else none := by
  induction keys with
  | nil => simp [pick]
  | cons k' rest ih =>
    unfold pick at ih ⊢
    cases h : o.lookup k' with
    | none =>
      simp only [List.filterMap_cons, h, Option.map_none']
      rw [ih]
      by_cases hk : k = k'
      · subst hk; simp [h]
      · simp [hk]
    | some v =>
      simp only [List.filterMap_cons, h, Option.map_some']
      by_cases hk : k = k'
      · subst hk; simp [List.lookup, h]
      · have hb : (k == k') = false := by simp [hk]
        simp [List.lookup, hb, ih, hk]

/-- A value stored in `modelKwargs`: either an option value copied as-is, or
the wrapper object with single key `type` built for `response_format`. -/
inductive KVal where
  | plain (v : JValue)
  | typeWrapper (v : JValue)
  deriving DecidableEq, Repr

/-- The `modelKwargs` object: extra parameters not typed by the chat client. -/
abbrev KwargsRecord := List (String × KVal)

/-- The reasoning-effort gate at node line 714:
the membership test of the array literal in
`['low', 'medium', 'high'].includes(options.reasoningEffort)`. -/
def isAllowedEffort (v : JValue) : Bool :=
  v == JValue.str "low" || v == JValue.str "medium" || v == JValue.str "high"

/-- Node line 713: `if (options.responseFormat) modelKwargs.response_format =
\x7b type: options.responseFormat \x7d` — a truthiness-guarded assignment of the
`type` wrapper object. -/
def responseFormatEntry (o : OptionsRecord) : KwargsRecord :=
  match getOpt o "responseFormat" with
  | some v => if v.truthy then [("response_format", KVal.typeWrapper v)] else []
  | none => []

/-- Node lines 714-715: `if (options.reasoningEffort &&
['low', 'medium', 'high'].includes(options.reasoningEffort))
modelKwargs.reasoning_effort = options.reasoningEffort`. The same enum-gated
copy is, per the spec, performed by the alternate-mode parameter builder. -/
def reasoningEffortEntry (o : OptionsRecord) : KwargsRecord :=
  match getOpt o "reasoningEffort" with
  | some v => if v.truthy && isAllowedEffort v then [("reasoning_effort", KVal.plain v)] else []
  | none => []

/-- An extra-parameter entry included only when the source option is present
and JS-truthy, copying the value unchanged. -/
def truthyEntry (o : OptionsRecord) (outKey srcKey : String) : KwargsRecord :=
  match getOpt o srcKey with
  | some v => if v.truthy then [(outKey, KVal.plain v)] else []
  | none => []

/-- Modelled from the spec: `prepareAdditionalResponsesParams` is imported from
a sibling module (`./common`) that is not among the repository's provided
source files. Spec section 4.1 Output B describes it: with the alternate
(Responses API) mode enabled it populates fields for conversation id, metadata
blob, prompt-cache key, reasoning effort (forwarded only when it is one of
low, medium, high — computed identically to the legacy branch), safety
identifier, service tier and top-log-probabilities, each included only when
present and non-default in the input. -/
def prepareAdditionalResponsesParams (o : OptionsRecord) : KwargsRecord :=
  truthyEntry o "conversation" "conversationId" ++
  truthyEntry o "metadata" "metadata" ++
  truthyEntry o "prompt_cache_key" "promptCacheKey" ++
  reasoningEffortEntry o ++
  truthyEntry o "safety_identifier" "safetyIdentifier" ++
  truthyEntry o "service_tier" "serviceTier" ++
  truthyEntry o "top_logprobs" "topLogprobs"

/-- Node lines 705-716: the `modelKwargs` object, built by the alternate-mode
builder when the Responses API is enabled and by the two legacy truthiness
guards otherwise. -/
def mkModelKwargs (responsesApiEnabled : Bool) (o : OptionsRecord) : KwargsRecord :=
  if responsesApiEnabled then prepareAdditionalResponsesParams o
  else responseFormatEntry o ++ reasoningEffortEntry o

/-- The Parameter Mapper of the spec: the pair of the allow-list projection
(node lines 719-726) and the extra-parameter object (node lines 705-716). -/
def paramMapper (o : OptionsRecord) (responsesApiEnabled : Bool) :
    OptionsRecord × KwargsRecord :=
  (pick o includedOptionKeys, mkModelKwargs responsesApiEnabled o)

/-- Node lines 696-702: `configuration.baseURL` is set from a truthy
`options.baseURL`, else from a truthy `credentials.url`, else left unset. -/
def configurationBaseURL (o : OptionsRecord) (credUrl : Option JValue) : Option JValue :=
  if jsTruthy (getOpt o "baseURL") then getOpt o "baseURL"
  else if jsTruthy credUrl then credUrl
  else none

/-- The fields object handed to the `ChatOpenAI` constructor (node lines
754-764), restricted to the parts the entry point computes: the spread of the
allow-listed options, the two nullish-coalescing defaults, the network
configuration and the extra parameters. -/
structure ChatFields where
  apiKey : JValue
  model : String
  included : OptionsRecord
  timeout : JValue
  maxRetries : JValue
  configuration : Option JValue
  modelKwargs : KwargsRecord
  deriving DecidableEq, Repr

/-- Node lines 696-770: assembling the constructor fields.
`timeout: options.timeout ?? 60000` and `maxRetries: options.maxRetries ?? 2`
are the only defaults the entry point applies. -/
def mkChatFields (apiKey : JValue) (model : String) (credUrl : Option JValue)
    (responsesApiEnabled : Bool) (o : OptionsRecord) : ChatFields :=
  { apiKey := apiKey
    model := model
    included := pick o includedOptionKeys
    timeout := (getOpt o "timeout").getD (JValue.num 60000)
    maxRetries := (getOpt o "maxRetries").getD (JValue.num 2)
    configuration := configurationBaseURL o credUrl
    modelKwargs := mkModelKwargs responsesApiEnabled o }

/-- A parsed metadata object (a JavaScript object of attribute values). -/
abbrev JObj := List (String × JValue)

/-- The runtime type of `langfuseOptions.metadata` / `.customMetadata`:
either a JSON string or an already-parsed object. -/
inductive MetaSource where
  | str (s : String)
  | obj (o : JObj)
  deriving DecidableEq, Repr

/-- JavaScript truthiness of a possibly-absent metadata source: `undefined`
and the empty string are falsy, every object is truthy. -/
def msTruthy : Option MetaSource → Bool
  | none => false
  | some (.str s) => s ≠ ""
  | some (.obj _) => true

/-- JavaScript `String.prototype.trim`, on strings embedded as char lists:
drop whitespace from the front and from the back. -/
def jsTrim (l : List Char) : List Char :=
  ((l.dropWhile Char.isWhitespace).reverse.dropWhile Char.isWhitespace).reverse

/-- JavaScript `String.prototype.trim` on a Lean string (same computation as
`jsTrim`, over the string's character list). -/
def jsTrimString (s : String) : String := ⟨jsTrim s.data⟩

/-- Node lines 623-638: choose `langfuseOptions.metadata || customMetadata`;
for a truthy string source, parse it when its trim is non-empty (an empty trim
yields the empty object), catching a parse failure by substituting the object
with the raw string under the sentinel key `_raw`; an object source is taken
as-is; a falsy source yields the empty object. The engine's JSON parser
(`jsonParse` from the workflow library, an external collaborator) is passed
in as a function. -/
def parseMetadata (jsonParse : String → Except String JObj)
    (metadata customMetadata : Option MetaSource) : JObj :=
  let metadataSource := if msTruthy metadata then metadata else customMetadata
  if msTruthy metadataSource then
    match metadataSource with
    | some (.str s) =>
      if jsTrimString s ≠ "" then
        match jsonParse s with
        | .ok m => m
        | .error _ => [("_raw", JValue.str s)]
      else []
    | some (.obj m) => m
    | none => []
  else []

/-- JavaScript `String.prototype.split(',')`: the comma-separated segments, in
order; the empty string yields one empty segment. -/
def splitOnComma : List Char → List (List Char)
  | [] => [[]]
  | c :: rest =>
    if c = ',' then [] :: splitOnComma rest
    else
      match splitOnComma rest with
      | [] => [[c]]
      | cur :: parts => (c :: cur) :: parts

/-- Node lines 620-621: `tagsString ? tagsString.split(',').map(t =>
t.trim()).filter(Boolean) : []` applied to `langfuseOptions.tags || ''`,
with `none` embedding an absent tags option. -/
def parseTags (tags : Option (List Char)) : List (List Char) :=
  let tagsString := tags.getD []
  if tagsString.isEmpty then []
  else ((splitOnComma tagsString).map jsTrim).filter fun t => !t.isEmpty

/-- LangChain token-usage statistics, as in the wrapper's doc example. -/
structure TokenUsage where
  promptTokens : Option Int
  completionTokens : Option Int
  totalTokens : Option Int
  deriving DecidableEq, Repr

/-- The nested `llmOutput` object of an `LLMResult`, with the two usage
field names the wrapper reconciles; `none` embeds an absent field. -/
structure LlmOutput where
  tokenUsage : Option TokenUsage
  estimatedTokenUsage : Option TokenUsage
  deriving DecidableEq, Repr

/-- A LangChain `LLMResult` restricted to the part the wrapper touches. -/
structure LLMResult where
  llmOutput : Option LlmOutput
  deriving DecidableEq, Repr

/-- The delegation `super.handleLLMEnd(output, runId, parentRunId)`: the
arguments the wrapped handler receives. -/
structure SuperHandleLLMEnd where
  output : LLMResult
  runId : String
  parentRunId : Option String
  deriving DecidableEq, Repr

/-- `LangfuseCallbackHandlerWrapper.handleLLMEnd` (wrapper lines 13-32): when
`output.llmOutput?.estimatedTokenUsage` is truthy and
`output.llmOutput?.tokenUsage` is falsy, set `output.llmOutput.tokenUsage` to
the estimated usage (mutating the result in place); then delegate to
`super.handleLLMEnd` with the possibly-mutated result and both identifiers. -/
def handleLLMEnd (output : LLMResult) (runId : String) (parentRunId : Option String) :
    SuperHandleLLMEnd :=
  let mutated :=
    match output.llmOutput with
    | some lo =>
      match lo.estimatedTokenUsage, lo.tokenUsage with
      | some est, none => { llmOutput := some { lo with tokenUsage := some est } }
      | _, _ => output
    | none => output
  { output := mutated, runId := runId, parentRunId := parentRunId }

theorem truthy_of_isAllowedEffort (v : JValue) (h : isAllowedEffort v = true) :
    v.truthy = true := by
  rcases v with s | q | b
  · simp only [isAllowedEffort, Bool.or_eq_true, beq_iff_eq, JValue.str.injEq] at h
    rcases h with (h | h) | h <;> subst h <;> decide
  · simp [isAllowedEffort] at h
  · simp [isAllowedEffort] at h

theorem lookup_truthyEntry_ne (o : OptionsRecord) (outKey srcKey k : String)
    (h : k ≠ outKey) : (truthyEntry o outKey srcKey).lookup k = none := by
  have hb : (k == outKey) = false := by simp [h]
  unfold truthyEntry
  cases getOpt o srcKey with
  | none => rfl
  | some v =>
    by_cases hv : v.truthy
    · simp [hv, List.lookup, hb]
    · simp [hv]

theorem lookup_responseFormatEntry_ne (o : OptionsRecord) (k : String)
    (h : k ≠ "response_format") : (responseFormatEntry o).lookup k = none := by
  have hb : (k == "response_format") = false := by simp [h]
  unfold responseFormatEntry
  cases getOpt o "responseFormat" with
  | none => rfl
  | some v =>
    by_cases hv : v.truthy
    · simp [hv, List.lookup, hb]
    · simp [hv]

theorem lookup_reasoningEffortEntry_ne (o : OptionsRecord) (k : String)
    (h : k ≠ "reasoning_effort") : (reasoningEffortEntry o).lookup k = none := by
  have hb : (k == "reasoning_effort") = false := by simp [h]
  unfold reasoningEffortEntry
  cases getOpt o "reasoningEffort" with
  | none => rfl
  | some v =>
    by_cases hv : v.truthy && isAllowedEffort v
    · simp [hv, List.lookup, hb]
    · simp [hv]

theorem lookup_responseFormatEntry_self (o : OptionsRecord) :
    (responseFormatEntry o).lookup "response_format" =
      match getOpt o "responseFormat" with
      | some v => if v.truthy then some (KVal.typeWrapper v) else none
      | none => none := by
  unfold responseFormatEntry
  cases getOpt o "responseFormat" with
  | none => rfl
  | some v =>
    by_cases hv : v.truthy
    · simp [hv, List.lookup]
    · simp [hv]

theorem lookup_reasoningEffortEntry_self (o : OptionsRecord) :
    (reasoningEffortEntry o).lookup "reasoning_effort" =
      match getOpt o "reasoningEffort" with
      | some v => if v.truthy && isAllowedEffort v then some (KVal.plain v) else none
      | none => none := by
  unfold reasoningEffortEntry
  cases getOpt o "reasoningEffort" with
  | none => rfl
  | some v =>
    by_cases hv : v.truthy && isAllowedEffort v
    · simp [hv, List.lookup]
    · simp [hv]

theorem lookup_effort_mkModelKwargs (mode : Bool) (o : OptionsRecord) :
    (mkModelKwargs mode o).lookup "reasoning_effort" =
      (reasoningEffortEntry o).lookup "reasoning_effort" := by
  cases mode with
  | false =>
    have hm : mkModelKwargs false o = responseFormatEntry o ++ reasoningEffortEntry o := rfl
    rw [hm, List.lookup_append, lookup_responseFormatEntry_ne o _ (by decide)]
    rfl
  | true =>
    have hm : mkModelKwargs true o = prepareAdditionalResponsesParams o := rfl
    rw [hm]
    unfold prepareAdditionalResponsesParams
    rw [List.lookup_append, List.lookup_append, List.lookup_append, List.lookup_append,
      List.lookup_append, List.lookup_append,
      lookup_truthyEntry_ne o "conversation" "conversationId" "reasoning_effort" (by decide),
      lookup_truthyEntry_ne o "metadata" "metadata" "reasoning_effort" (by decide),
      lookup_truthyEntry_ne o "prompt_cache_key" "promptCacheKey" "reasoning_effort" (by decide),
      lookup_truthyEntry_ne o "safety_identifier" "safetyIdentifier" "reasoning_effort" (by decide),
      lookup_truthyEntry_ne o "service_tier" "serviceTier" "reasoning_effort" (by decide),
      lookup_truthyEntry_ne o "top_logprobs" "topLogprobs" "reasoning_effort" (by decide)]
    simp

theorem head?_dropWhile_false (p : Char → Bool) (l : List Char) (a : Char)
    (h : (l.dropWhile p).head? = some a) : p a = false := by
  induction l with
  | nil => simp [List.dropWhile] at h
  | cons x xs ih =>
    rw [List.dropWhile_cons] at h
    split at h
    · exact ih h
    · next hx =>
      simp only [List.head?_cons, Option.some.injEq] at h
      subst h
      simpa using hx

theorem getLast?_dropWhile_ne_nil (p : Char → Bool) (l : List Char)
    (h : l.dropWhile p ≠ []) : (l.dropWhile p).getLast? = l.getLast? := by
  induction l with
  | nil => simp [List.dropWhile] at h
  | cons x xs ih =>
    rw [List.dropWhile_cons] at h ⊢
    by_cases hx : p x = true
    · rw [if_pos hx] at h ⊢
      have hxs : xs ≠ [] := by
        rintro rfl
        simp [List.dropWhile] at h
      rw [ih h]
      cases xs with
      | nil => exact absurd rfl hxs
      | cons y ys => exact List.getLast?_cons_cons.symm
    · rw [if_neg hx]

theorem head?_jsTrim_not_ws (u : List Char) (a : Char)
    (h : (jsTrim u).head? = some a) : a.isWhitespace = false := by
  unfold jsTrim at h
  rw [List.head?_reverse] at h
  have hne : (u.dropWhile Char.isWhitespace).reverse.dropWhile Char.isWhitespace ≠ [] := by
    intro hb
    rw [hb] at h
    simp at h
  rw [getLast?_dropWhile_ne_nil _ _ hne, List.getLast?_reverse] at h
  exact head?_dropWhile_false _ _ _ h

theorem getLast?_jsTrim_not_ws (u : List Char) (a : Char)
    (h : (jsTrim u).getLast? = some a) : a.isWhitespace = false := by
  unfold jsTrim at h
  rw [List.getLast?_reverse] at h
  exact head?_dropWhile_false _ _ _ h

/-- C1: for every Options Record (any association of keys to values, in
particular with any subset of optional fields missing), the Direct Fields
output of the Parameter Mapper — the lodash pick at node lines 719-726 — has
no key outside the fixed allow-list, and every key of the input record that is
not in the allow-list is absent from the output. -/
theorem c1_direct_fields_allowlist (o : OptionsRecord) (k : String)
    (h : k ∉ includedOptionKeys) :
    (pick o includedOptionKeys).lookup k = none ∧
    ∀ kv ∈ pick o includedOptionKeys, kv.1 ∈ includedOptionKeys := by
  constructor
  · rw [lookup_pick]
    simp [h]
  · intro kv hkv
    unfold pick at hkv
    rcases List.mem_filterMap.1 hkv with ⟨k', hk', hf⟩
    cases hv : o.lookup k' with
    | none => rw [hv] at hf; simp at hf
    | some v =>
      rw [hv] at hf
      simp only [Option.map_some', Option.some.injEq] at hf
      rw [← hf]
      exact hk'

/-- C1 witness: a record carrying the unlisted key customKey loses it. -/
theorem c1_witness :
    (pick [("customKey", JValue.str "x"), ("temperature", JValue.num 1)]
      includedOptionKeys).lookup "customKey" = none :=
  (c1_direct_fields_allowlist _ "customKey" (by decide)).1

/-- C2: the wrapper's end-of-generation handler delegates with both
identifiers unchanged; it rewrites the result's tokenUsage to the estimated
usage exactly when estimatedTokenUsage is present and tokenUsage absent, and
otherwise delegates the result unchanged. -/
theorem c2_handleLLMEnd_contract (out : LLMResult) (runId : String)
    (parentRunId : Option String) :
    (handleLLMEnd out runId parentRunId).runId = runId ∧
    (handleLLMEnd out runId parentRunId).parentRunId = parentRunId ∧
    (∀ lo est, out.llmOutput = some lo → lo.estimatedTokenUsage = some est →
      lo.tokenUsage = none →
      (handleLLMEnd out runId parentRunId).output = ⟨some ⟨some est, some est⟩⟩) ∧
    ((∀ lo, out.llmOutput = some lo →
        lo.tokenUsage ≠ none ∨ lo.estimatedTokenUsage = none) →
      (handleLLMEnd out runId parentRunId).output = out) := by
  refine ⟨rfl, rfl, ?_, ?_⟩
  · intro lo est h1 h2 h3
    rcases lo with ⟨tu, etu⟩
    simp only at h2 h3
    subst h2
    subst h3
    simp [handleLLMEnd, h1]
  · intro hcase
    cases hlo : out.llmOutput with
    | none => simp [handleLLMEnd, hlo]
    | some lo =>
      rcases hcase lo hlo with h | h
      · cases ht : lo.tokenUsage with
        | none => exact absurd ht h
        | some tu =>
          cases he : lo.estimatedTokenUsage <;> simp [handleLLMEnd, hlo, ht, he]
      · cases ht : lo.tokenUsage <;> simp [handleLLMEnd, hlo, ht, h]

/-- C2 witness: the spec's example, estimatedTokenUsage with promptTokens 5
and no tokenUsage is copied across; the identifiers are returned unchanged. -/
theorem c2_witness :
    (handleLLMEnd ⟨some ⟨none, some ⟨some 5, none, none⟩⟩⟩ "run-1" none).output =
      ⟨some ⟨some ⟨some 5, none, none⟩, some ⟨some 5, none, none⟩⟩⟩ :=
  (c2_handleLLMEnd_contract ⟨some ⟨none, some ⟨some 5, none, none⟩⟩⟩ "run-1"
    none).2.2.1 _ _ rfl rfl rfl

/-- C3: in both invocation modes the Extra Parameters carry the key
reasoning_effort, with the supplied value copied as-is, exactly when the
supplied value is one of the strings low, medium, high; any other supplied
value leaves the key absent, and the construction is total (no error). -/
theorem c3_reasoning_effort_gate (mode : Bool) (o : OptionsRecord) :
    (∀ v, (mkModelKwargs mode o).lookup "reasoning_effort" = some (KVal.plain v) ↔
      getOpt o "reasoningEffort" = some v ∧ isAllowedEffort v = true) ∧
    ∀ w, (mkModelKwargs mode o).lookup "reasoning_effort" ≠ some (KVal.typeWrapper w) := by
  have hred := lookup_effort_mkModelKwargs mode o
  rw [lookup_reasoningEffortEntry_self] at hred
  constructor
  · intro v
    rw [hred]
    cases hro : getOpt o "reasoningEffort" with
    | none => simp
    | some u =>
      by_cases hu : (u.truthy && isAllowedEffort u) = true
      · simp only [hu, if_true, Option.some.injEq, KVal.plain.injEq]
        constructor
        · intro huv
          subst huv
          have hu2 := hu
          simp only [Bool.and_eq_true] at hu2
          exact ⟨rfl, hu2.2⟩
        · rintro ⟨huv, _⟩
          exact huv
      · simp only [Bool.not_eq_true] at hu
        simp only [hu, Bool.false_eq_true, if_false, Option.some.injEq]
        constructor
        · intro hcontra
          exact absurd hcontra (by simp)
        · rintro ⟨huv, hall⟩
          have hall2 : isAllowedEffort u = true := by rw [huv]; exact hall
          rw [truthy_of_isAllowedEffort u hall2, hall2] at hu
          simp at hu
  · intro w
    rw [hred]
    cases getOpt o "reasoningEffort" with
    | none => simp
    | some u =>
      by_cases hu : (u.truthy && isAllowedEffort u) = true
      · simp [hu]
      · simp only [Bool.not_eq_true] at hu
        simp [hu]

/-- C3 witness: with reasoningEffort set to high, both modes emit the key. -/
theorem c3_witness :
    (mkModelKwargs true [("reasoningEffort", JValue.str "high")]).lookup "reasoning_effort" =
      some (KVal.plain (JValue.str "high")) :=
  ((c3_reasoning_effort_gate true [("reasoningEffort", JValue.str "high")]).1
    (JValue.str "high")).mpr ⟨rfl, by decide⟩

/-- C4 counterexample: a record supplying responseFormat as the empty string.
The guard at node line 713 is a JS truthiness test, so the supplied option
yields no response_format key — "present if and only if supplied" fails. -/
theorem c4_counterexample :
    getOpt [("responseFormat", JValue.str "")] "responseFormat" =
      some (JValue.str "") ∧
    (mkModelKwargs false [("responseFormat", JValue.str "")]).lookup "response_format" =
      none := by
  constructor <;> rfl

/-- C4 (amended): with the Responses API disabled the Extra Parameters contain
only keys among response_format and reasoning_effort, and response_format is
present exactly when a JS-truthy (in particular, non-empty-string)
responseFormat option was supplied, in which case its value is the wrapper
object with key type holding the supplied format. -/
theorem c4_legacy_extra_params (o : OptionsRecord) :
    (∀ k v, (mkModelKwargs false o).lookup k = some v →
      k = "response_format" ∨ k = "reasoning_effort") ∧
    ∀ w, (mkModelKwargs false o).lookup "response_format" = some w ↔
      ∃ v, getOpt o "responseFormat" = some v ∧ v.truthy = true ∧
        w = KVal.typeWrapper v := by
  have hm : mkModelKwargs false o = responseFormatEntry o ++ reasoningEffortEntry o := rfl
  constructor
  · intro k v hk
    by_contra hne
    push_neg at hne
    rw [hm, List.lookup_append, lookup_responseFormatEntry_ne o k hne.1,
      lookup_reasoningEffortEntry_ne o k hne.2] at hk
    simp at hk
  · intro w
    have hr : (mkModelKwargs false o).lookup "response_format" =
        (responseFormatEntry o).lookup "response_format" := by
      rw [hm, List.lookup_append, lookup_reasoningEffortEntry_ne o _ (by decide)]
      cases (responseFormatEntry o).lookup "response_format" <;> rfl
    rw [hr, lookup_responseFormatEntry_self]
    cases hro : getOpt o "responseFormat" with
    | none => simp
    | some u =>
      by_cases hu : u.truthy = true
      · simp only [hu, if_true, Option.some.injEq]
        constructor
        · intro hw
          exact ⟨u, rfl, hu, hw.symm⟩
        · rintro ⟨v, hv, _, hw⟩
          rw [hw, hv]
      · simp only [Bool.not_eq_true] at hu
        simp only [hu, Bool.false_eq_true, if_false]
        constructor
        · intro hcontra
          exact absurd hcontra (by simp)
        · rintro ⟨v, hv, hvt, _⟩
          injection hv with hv
          rw [← hv] at hvt
          rw [hvt] at hu
          simp at hu

/-- C4 witness: a supplied json_object format appears as the type wrapper. -/
theorem c4_witness :
    (mkModelKwargs false [("responseFormat", JValue.str "json_object")]).lookup
      "response_format" = some (KVal.typeWrapper (JValue.str "json_object")) :=
  ((c4_legacy_extra_params [("responseFormat", JValue.str "json_object")]).2
    (KVal.typeWrapper (JValue.str "json_object"))).mpr
    ⟨JValue.str "json_object", rfl, by decide, rfl⟩

/-- C5 counterexample: with an empty Options Record the constructor fields
carry no temperature at all — the claimed temperature default 0.7 is not
applied by the entry point (the 0.7 default lives only in the node's UI
schema; the entry point defaults only timeout and maxRetries). -/
theorem c5_counterexample :
    (mkChatFields (JValue.str "key") "gpt-4.1-mini" none false []).included.lookup
      "temperature" = none ∧
    (mkChatFields (JValue.str "key") "gpt-4.1-mini" none false []).included.lookup
      "temperature" ≠ some (JValue.num (mkRat 7 10)) := by
  constructor
  · rfl
  · intro h
    simp only [mkChatFields, pick, includedOptionKeys] at h
    cases h

/-- C5 (amended): the entry point applies defaults only for timeout (60000)
and maxRetries (2), via nullish coalescing; every allow-listed field it
spreads into the constructor carries exactly the supplied value, and an
absent option — temperature included — produces no field at all, so the
constructor never receives an undefined numeric field. -/
theorem c5_defaults (apiKey : JValue) (model : String) (credUrl : Option JValue)
    (mode : Bool) (o : OptionsRecord) :
    (getOpt o "timeout" = none →
      (mkChatFields apiKey model credUrl mode o).timeout = JValue.num 60000) ∧
    (∀ t, getOpt o "timeout" = some t →
      (mkChatFields apiKey model credUrl mode o).timeout = t) ∧
    (getOpt o "maxRetries" = none →
      (mkChatFields apiKey model credUrl mode o).maxRetries = JValue.num 2) ∧
    (∀ r, getOpt o "maxRetries" = some r →
      (mkChatFields apiKey model credUrl mode o).maxRetries = r) ∧
    ∀ k v, (mkChatFields apiKey model credUrl mode o).included.lookup k = some v →
      getOpt o k = some v := by
  refine ⟨?_, ?_, ?_, ?_, ?_⟩
  · intro h
    simp [mkChatFields, h]
  · intro t h
    simp [mkChatFields, h]
  · intro h
    simp [mkChatFields, h]
  · intro r h
    simp [mkChatFields, h]
  · intro k v h
    simp only [mkChatFields] at h
    rw [lookup_pick] at h
    split at h
    · exact h
    · cases h

/-- C5 witness: the empty record gets timeout 60000 and maxRetries 2. -/
theorem c5_witness :
    (mkChatFields (JValue.str "key") "gpt-4.1-mini" none false []).timeout =
      JValue.num 60000 :=
  (c5_defaults (JValue.str "key") "gpt-4.1-mini" none false []).1 rfl

/-- C6: in the entry point's metadata-parse path, whenever the selected
metadata source is a string that reaches the JSON parser (its trim is
non-empty) and the parse fails, the invocation does not abort: the exception
is caught and the metadata becomes the object carrying the raw string under
the single sentinel key _raw. -/
theorem c6_metadata_parse_fallback (jsonParse : String → Except String JObj)
    (metadata customMetadata : Option MetaSource) (s errMsg : String)
    (hsrc : (if msTruthy metadata then metadata else customMetadata) =
      some (MetaSource.str s))
    (htrim : jsTrimString s ≠ "")
    (hfail : jsonParse s = Except.error errMsg) :
    parseMetadata jsonParse metadata customMetadata = [("_raw", JValue.str s)] := by
  have hs : s ≠ "" := by
    intro h
    subst h
    exact htrim rfl
  simp only [parseMetadata]
  rw [hsrc]
  simp [msTruthy, hs, htrim, hfail]

/-- C6 witness: a malformed metadata string is wrapped under _raw. -/
theorem c6_witness :
    parseMetadata (fun _ => Except.error "unexpected token")
      (some (MetaSource.str "oops[")) none = [("_raw", JValue.str "oops[")] :=
  c6_metadata_parse_fallback (fun _ => Except.error "unexpected token")
    (some (MetaSource.str "oops[")) none "oops[" "unexpected token"
    (by decide) (by decide) rfl

/-- C7: the end-to-end scenario of the spec: the Options Record with
temperature 0.9 and maxTokens 100, alternate mode disabled, yields Direct
Fields holding exactly those two entries and an empty Extra Parameters
object. -/
theorem c7_scenario :
    paramMapper [("temperature", JValue.num (mkRat 9 10)),
      ("maxTokens", JValue.num 100)] false =
      ([("maxTokens", JValue.num 100), ("temperature", JValue.num (mkRat 9 10))],
        []) := by
  decide

/-- C8: the Parameter Mapper is a pure function of the Options Record and the
mode flag; two invocations with identical inputs yield identical Direct
Fields and identical Extra Parameters. -/
theorem c8_mapper_deterministic (o₁ o₂ : OptionsRecord) (m₁ m₂ : Bool)
    (ho : o₁ = o₂) (hm : m₁ = m₂) :
    paramMapper o₁ m₁ = paramMapper o₂ m₂ := by
  rw [ho, hm]

/-- C8 witness: two invocations on the same record coincide. -/
theorem c8_witness :
    paramMapper [("topP", JValue.num 1)] true = paramMapper [("topP", JValue.num 1)] true :=
  c8_mapper_deterministic [("topP", JValue.num 1)] [("topP", JValue.num 1)] true true rfl rfl

/-- C9: the tag list derived at node lines 620-621 splits on commas, trims
each segment and drops empty segments, so it never contains an empty or
whitespace-padded entry; an absent or empty tags string yields the empty
list. -/
theorem c9_tags_clean (tags : Option (List Char)) :
    (∀ t ∈ parseTags tags, t ≠ [] ∧
      (∀ a, t.head? = some a → a.isWhitespace = false) ∧
      (∀ a, t.getLast? = some a → a.isWhitespace = false)) ∧
    parseTags none = [] ∧ parseTags (some []) = [] := by
  refine ⟨?_, rfl, rfl⟩
  intro t ht
  cases tags with
  | none => simp [parseTags] at ht
  | some s =>
    by_cases hs : s.isEmpty
    · simp [parseTags, hs] at ht
    · simp only [parseTags, Option.getD_some, hs, Bool.false_eq_true, if_false] at ht
      rcases List.mem_filter.1 ht with ⟨hmem, hne⟩
      rcases List.mem_map.1 hmem with ⟨u, _, hu⟩
      subst hu
      refine ⟨by simpa using hne, ?_, ?_⟩
      · intro a ha
        exact head?_jsTrim_not_ws u a ha
      · intro a ha
        exact getLast?_jsTrim_not_ws u a ha

/-- C9 witness: the input " a ,b," yields the cleaned list [a, b]. -/
theorem c9_witness :
    parseTags (some [' ', 'a', ' ', ',', 'b', ',']) = [['a'], ['b']] ∧
    (['a'] : List Char) ≠ [] :=
  ⟨by decide,
    ((c9_tags_clean (some [' ', 'a', ' ', ',', 'b', ','])).1 ['a'] (by decide)).1⟩

/-- C10: the chat client's network-configuration base URL follows the fixed
precedence of node lines 696-702: a non-empty options baseURL wins; otherwise
a non-empty credentials url is used; otherwise no baseURL is set at all. -/
theorem c10_baseURL_precedence (o : OptionsRecord) (credUrl : Option JValue) :
    (∀ s, getOpt o "baseURL" = some (JValue.str s) → s ≠ "" →
      configurationBaseURL o credUrl = some (JValue.str s)) ∧
    ((getOpt o "baseURL" = none ∨ getOpt o "baseURL" = some (JValue.str "")) →
      ∀ u, credUrl = some (JValue.str u) → u ≠ "" →
        configurationBaseURL o credUrl = some (JValue.str u)) ∧
    ((getOpt o "baseURL" = none ∨ getOpt o "baseURL" = some (JValue.str "")) →
      (credUrl = none ∨ credUrl = some (JValue.str "")) →
      configurationBaseURL o credUrl = none) := by
  refine ⟨?_, ?_, ?_⟩
  · intro s h hs
    unfold configurationBaseURL
    rw [h]
    simp [jsTruthy, JValue.truthy, hs]
  · intro hb u hc hu
    unfold configurationBaseURL
    rcases hb with h | h <;> rw [h, hc] <;> simp [jsTruthy, JValue.truthy, hu]
  · intro hb hc
    unfold configurationBaseURL
    rcases hb with h | h <;> rcases hc with h2 | h2 <;> rw [h, h2] <;>
      simp [jsTruthy, JValue.truthy]

/-- C10 witness: a non-empty options baseURL takes precedence over the
credentials url. -/
theorem c10_witness :
    configurationBaseURL [("baseURL", JValue.str "https://example.test/v1")]
      (some (JValue.str "https://cred.test/v1")) =
      some (JValue.str "https://example.test/v1") :=
  (c10_baseURL_precedence [("baseURL", JValue.str "https://example.test/v1")]
    (some (JValue.str "https://cred.test/v1"))).1 "https://example.test/v1" rfl
    (by decide)
